import Mathlib

/-!
# dns-switcher: a shallow embedding of `main.go`

The program probes a pool of addresses over HTTP and, when the address in use
stops answering, repoints a list of DNS records to the next address of the
pool.

Everything the program does to the outside (HTTP exchanges, log lines, sleeps)
is recorded, in order of occurrence, in the `trace` of a `World`.  What the
outside answers is read from the world too: `World.http k` is the outcome of
the `k`-th HTTP exchange of the run, so that quantifying over worlds
quantifies over every sequence of probe and update outcomes.  Calls of the
program's own effectful functions are recorded as events as well, so that
"how many times was `updateDNSRecord` called, and with what" is a property of
the trace.

A request carries the URL that `http.NewRequest` parsed, not the raw string it
was given: the parsing and printing of `net/url` are modelled for the URLs the
program builds, so that an identifier with a space, a `?` or a `#` shows in the
request as it does in Go.

Go's `int` is 64 bits wide; the only arithmetic of the program is
`(currentIndex + 1) % len(ips)` with `currentIndex < len(ips)`, which cannot
overflow, so indices are natural numbers.  Go strings that are not valid
UTF-8 have no counterpart here.
-/

namespace DnsSwitcher

/-! ## Data model -/

/-- The struct `DNSRecord` (main.go, lines 17-22); the JSON keys are those of the field tags. -/
structure DNSRecord where
  /-- The field `Type` of the source; the bare word is reserved here. -/
  Type_ : String
  Name : String
  Content : String
  TTL : Int
  deriving DecidableEq, Repr

/-- The part of `http.Response` the program reads. -/
structure Response where
  StatusCode : Int
  deriving DecidableEq, Repr

/-- The pair `(resp, err)` returned by `http.Get` and `client.Do`.  When `err` is nil
the response is non-nil (`ok`); when `err` is non-nil a response may or may not come
with it (`fail`). -/
inductive HttpResult where
  | ok (resp : Response)
  | fail (resp : Option Response) (err : String)
  deriving DecidableEq, Repr

/-- The value `http.Header`, as an association list. -/
abbrev Header := List (String × String)

/-- The method `Header.Set`: replaces whatever the key held. -/
def Header.Set (h : Header) (key value : String) : Header :=
  h.filter (fun kv => kv.1 != key) ++ [(key, value)]

/-- The method `Header.Get`: the value of the key, if it has one. -/
def Header.Get (h : Header) (key : String) : Option String :=
  (h.find? (fun kv => kv.1 == key)).map (fun kv => kv.2)

/-- The part of `http.Request` the program sets. -/
structure Request where
  Method : String
  /-- The parsed URL of the request, as `req.URL.String()` prints it. -/
  URL : String
  Header : Header
  Body : String
  deriving DecidableEq, Repr

/-- What the program does, as seen from outside, plus the calls of its own functions. -/
inductive Event where
  | checkIP (ip domain : String)
  | updateDNSRecord (apiToken zoneID recordID ip domain : String)
  | sendTelegramMessage (botToken chatID message : String)
  | httpGet (url : String)
  | httpDo (req : Request)
  | notifySend (receiver subject message : String)
  | logPrintf (msg : String)
  | sleep (seconds : Nat)
  deriving DecidableEq, Repr

/-- The outside world of one run. -/
structure World where
  /-- The outcome of the `k`-th exchange with the network (`http.Get`, `client.Do`). -/
  http : Nat → HttpResult
  /-- The error `http.NewRequest` reports for a URL that `url.Parse` rejects. -/
  urlErr : String → Option String
  /-- The error the `k`-th `notifier.Send` returns. -/
  send : Nat → Option String
  /-- The number of exchanges with the outside made so far. -/
  calls : Nat
  /-- The events so far, oldest first. -/
  trace : List Event

/-- Record one event. -/
def World.emit (w : World) (e : Event) : World :=
  { w with trace := w.trace ++ [e] }

/-- Take the outcome of the next exchange. -/
def World.exchange (w : World) : HttpResult × World :=
  (w.http w.calls, { w with calls := w.calls + 1 })

/-- A run-time panic of the Go program. -/
inductive Panic where
  | indexOutOfRange (index length : Nat)
  | divideByZero
  deriving DecidableEq, Repr

/-! ## `encoding/json` and `strings`, as far as the program uses them -/

/-- The sixteen digits `encoding/json` writes in a `\u00XX` escape. -/
def hexDigit (n : Nat) : Char :=
  "0123456789abcdef".data.getD n '0'

/-- Whether `json.Marshal` writes the character as it is: the ASCII characters from
space on other than the double quote, the backslash, `<`, `>` and `&`, and everything
beyond ASCII other than U+2028 and U+2029. -/
def jsonSafe (c : Char) : Bool :=
  if c.toNat < 128 then
    32 ≤ c.toNat && c.toNat != 34 && c.toNat != 92 && c.toNat != 60 && c.toNat != 62
      && c.toNat != 38
  else
    c.toNat != 8232 && c.toNat != 8233

/-- The encoding of one character inside a JSON string, as `json.Marshal` writes it. -/
def jsonEscapeChar (c : Char) : List Char :=
  if jsonSafe c then [c]
  else if c.toNat = 92 ∨ c.toNat = 34 then [Char.ofNat 92, c]
  else if c.toNat = 8 then [Char.ofNat 92, 'b']
  else if c.toNat = 12 then [Char.ofNat 92, 'f']
  else if c.toNat = 10 then [Char.ofNat 92, 'n']
  else if c.toNat = 13 then [Char.ofNat 92, 'r']
  else if c.toNat = 9 then [Char.ofNat 92, 't']
  else if c.toNat < 128 then
    [Char.ofNat 92, 'u', '0', '0', hexDigit (c.toNat / 16), hexDigit (c.toNat % 16)]
  else
    [Char.ofNat 92, 'u', '2', '0', '2', hexDigit (c.toNat % 16)]

/-- A Go string as a JSON string literal. -/
def jsonString (s : String) : String :=
  "\"" ++ String.mk (s.data.flatMap jsonEscapeChar) ++ "\""

/-- The call `json.Marshal(record)` for a `DNSRecord`: the fields in declaration order
under their tag names.  It cannot fail for a struct of strings and an int. -/
def jsonMarshal (r : DNSRecord) : String :=
  "\x7b\"type\":" ++ jsonString r.Type_ ++ ",\"name\":" ++ jsonString r.Name
    ++ ",\"content\":" ++ jsonString r.Content ++ ",\"ttl\":" ++ toString r.TTL ++ "\x7d"

/-- Cut a list of characters at every occurrence of the separator. -/
def splitChars (sep : Char) : List Char → List (List Char)
  | [] => [[]]
  | c :: cs =>
    if c = sep then [] :: splitChars sep cs
    else
      match splitChars sep cs with
      | [] => [[c]]
      | piece :: rest => (c :: piece) :: rest

/-- The call `strings.Split(s, sep)` for a separator of one character: the pieces of `s`
between the separators, `[s]` when `s` holds no separator. -/
def Split (s : String) (sep : Char) : List String :=
  (splitChars sep s.data).map String.mk

/-! ## `net/url`, as far as `http.NewRequest` uses it -/

/-- The bytes of one character of a Go string: its UTF-8 encoding. -/
def utf8 (c : Char) : List Nat :=
  if c.toNat < 128 then [c.toNat]
  else if c.toNat < 2048 then [192 + c.toNat / 64, 128 + c.toNat % 64]
  else if c.toNat < 65536 then
    [224 + c.toNat / 4096, 128 + c.toNat / 64 % 64, 128 + c.toNat % 64]
  else
    [240 + c.toNat / 262144, 128 + c.toNat / 4096 % 64, 128 + c.toNat / 64 % 64,
      128 + c.toNat % 64]

/-- The bytes of a Go string. -/
def utf8Bytes (s : List Char) : List Nat :=
  s.flatMap utf8

/-- The two modes of `net/url` escaping that parsing a URL with a path and a fragment
uses. -/
inductive encoding where
  | encodePath
  | encodeFragment
  deriving DecidableEq, Repr

/-- The function `shouldEscape(c, mode)` of `net/url` for the path and fragment modes:
letters, digits and `- _ . ~` are never escaped; of the reserved `$ & + , / : ; = ? @` the
path escapes `?` only and the fragment none; the fragment also leaves `! ( ) *`; every other
byte is escaped. -/
def shouldEscape (c : Nat) (mode : encoding) : Bool :=
  if (97 ≤ c ∧ c ≤ 122) ∨ (65 ≤ c ∧ c ≤ 90) ∨ (48 ≤ c ∧ c ≤ 57) then false
  else if c = 45 ∨ c = 95 ∨ c = 46 ∨ c = 126 then false
  else if c = 36 ∨ c = 38 ∨ c = 43 ∨ c = 44 ∨ c = 47 ∨ c = 58 ∨ c = 59 ∨ c = 61 ∨ c = 63
      ∨ c = 64 then
    match mode with
    | .encodePath => c = 63
    | .encodeFragment => false
  else if mode = .encodeFragment ∧ (c = 33 ∨ c = 40 ∨ c = 41 ∨ c = 42) then false
  else true

/-- The sixteen digits `net/url` writes in a `%XX` escape. -/
def upperhex (n : Nat) : Char :=
  "0123456789ABCDEF".data.getD n '0'

/-- The function `escape(s, mode)` of `net/url`: every byte that `shouldEscape` names is
written `%XX`, the others as they are. -/
def escape (mode : encoding) : List Nat → List Char
  | [] => []
  | c :: rest =>
    if shouldEscape c mode then
      '%' :: upperhex (c / 16) :: upperhex (c % 16) :: escape mode rest
    else
      Char.ofNat c :: escape mode rest

/-- The function `ishex` of `net/url`. -/
def ishex (c : Nat) : Bool :=
  (48 ≤ c ∧ c ≤ 57) ∨ (97 ≤ c ∧ c ≤ 102) ∨ (65 ≤ c ∧ c ≤ 70)

/-- The function `unhex` of `net/url`. -/
def unhex (c : Nat) : Nat :=
  if 48 ≤ c ∧ c ≤ 57 then c - 48
  else if 97 ≤ c ∧ c ≤ 102 then c - 97 + 10
  else if 65 ≤ c ∧ c ≤ 70 then c - 65 + 10
  else 0

/-- The function `unescape(s, mode)` of `net/url` for the path and fragment modes, which
it treats alike: `%XX` becomes the byte it names, and a `%` not followed by two hex digits
is an error (`none`). -/
def unescape : List Nat → Option (List Nat)
  | [] => some []
  | c :: rest =>
    if c = 37 then
      match rest with
      | h :: l :: rest' =>
        if ishex h ∧ ishex l then (unescape rest').map (fun t => (unhex h * 16 + unhex l) :: t)
        else none
      | _ => none
    else (unescape rest).map (fun t => c :: t)

/-- The function `validEncoded(s, mode)` of `net/url`. -/
def validEncoded (s : List Nat) (mode : encoding) : Bool :=
  s.all fun c =>
    if c = 33 ∨ c = 36 ∨ c = 38 ∨ c = 39 ∨ c = 40 ∨ c = 41 ∨ c = 42 ∨ c = 43 ∨ c = 44
        ∨ c = 59 ∨ c = 61 ∨ c = 58 ∨ c = 64 then true
    else if c = 91 ∨ c = 93 then true
    else if c = 37 then true
    else !shouldEscape c mode

/-- The call `strings.Cut(s, sep)` for a separator of one character: the text before the
first separator, the text after it, and whether there is one. -/
def Cut (sep : Char) : List Char → List Char × List Char × Bool
  | [] => ([], [], false)
  | c :: cs =>
    if c = sep then ([], cs, true)
    else
      let r := Cut sep cs
      (c :: r.1, r.2.1, r.2.2)

/-- The loop of `getScheme` of `net/url`: `seen` holds the characters passed so far, last
first, and `none` is the error `missing protocol scheme`. -/
def getSchemeLoop (rawURL : List Char) : List Char → List Char → Option (List Char × List Char)
  | _, [] => some ([], rawURL)
  | seen, c :: cs =>
    if (97 ≤ c.toNat ∧ c.toNat ≤ 122) ∨ (65 ≤ c.toNat ∧ c.toNat ≤ 90) then
      getSchemeLoop rawURL (c :: seen) cs
    else if (48 ≤ c.toNat ∧ c.toNat ≤ 57) ∨ c = '+' ∨ c = '-' ∨ c = '.' then
      if seen = [] then some ([], rawURL) else getSchemeLoop rawURL (c :: seen) cs
    else if c = ':' then
      if seen = [] then none else some (seen.reverse, cs)
    else some ([], rawURL)

/-- The function `getScheme(rawURL)` of `net/url`: the scheme and what follows its colon. -/
def getScheme (rawURL : List Char) : Option (List Char × List Char) :=
  getSchemeLoop rawURL [] rawURL

/-- The call `strings.ToLower` on one ASCII character. -/
def toLowerChar (c : Char) : Char :=
  if 65 ≤ c.toNat ∧ c.toNat ≤ 90 then Char.ofNat (c.toNat + 32) else c

/-- The fields of `url.URL` that parsing a URL `scheme://host/path?query#fragment` sets;
`Path` and `Fragment` are byte strings, since unescaping may leave bytes that are not
UTF-8. -/
structure URL where
  Scheme : List Char
  Host : List Char
  Path : List Nat
  RawPath : List Char
  ForceQuery : Bool
  RawQuery : List Char
  Fragment : List Nat
  RawFragment : List Char
  deriving DecidableEq, Repr

/-- The method `URL.EscapedPath`. -/
def URL.EscapedPath (u : URL) : List Char :=
  if u.RawPath ≠ [] ∧ validEncoded (utf8Bytes u.RawPath) .encodePath
      ∧ unescape (utf8Bytes u.RawPath) = some u.Path then u.RawPath
  else if u.Path = [42] then ['*']
  else escape .encodePath u.Path

/-- The method `URL.EscapedFragment`. -/
def URL.EscapedFragment (u : URL) : List Char :=
  if u.RawFragment ≠ [] ∧ validEncoded (utf8Bytes u.RawFragment) .encodeFragment
      ∧ unescape (utf8Bytes u.RawFragment) = some u.Fragment then u.RawFragment
  else escape .encodeFragment u.Fragment

/-- The method `URL.String` for a URL with a scheme and a host and no user information:
scheme, `://`, host, escaped path, `?` and the query when there is one, `#` and the
escaped fragment when there is one. -/
def URL.String (u : URL) : String :=
  String.mk (u.Scheme ++ [':'] ++ ['/', '/'] ++ u.Host
    ++ (if u.EscapedPath ≠ [] ∧ u.EscapedPath.head? ≠ some '/' then ['/'] else [])
    ++ u.EscapedPath
    ++ (if u.ForceQuery ∨ u.RawQuery ≠ [] then '?' :: u.RawQuery else [])
    ++ (if u.Fragment ≠ [] then '#' :: u.EscapedFragment else []))

/-- Whether an authority is a plain host name: not empty, and made of letters, digits,
dots and hyphens. -/
def plainHost (authority : List Char) : Bool :=
  authority ≠ [] ∧ authority.all fun c =>
    (97 ≤ c.toNat ∧ c.toNat ≤ 122) ∨ (65 ≤ c.toNat ∧ c.toNat ≤ 90)
      ∨ (48 ≤ c.toNat ∧ c.toNat ≤ 57) ∨ c = '.' ∨ c = '-'

/-- The method `URL.setPath`. -/
def URL.setPath (u : URL) (p : List Char) : Option URL :=
  match unescape (utf8Bytes p) with
  | none => none
  | some path =>
    some { u with Path := path, RawPath := if p = escape .encodePath path then [] else p }

/-- The method `URL.setFragment`. -/
def URL.setFragment (u : URL) (f : List Char) : Option URL :=
  match unescape (utf8Bytes f) with
  | none => none
  | some frag =>
    some { u with
      Fragment := frag
      RawFragment := if f = escape .encodeFragment frag then [] else f }

/-- The outcome of parsing a raw URL: the URL, an error of `url.Parse`, or a raw URL of a
form that is not modelled. -/
inductive Parsed where
  | url (u : URL)
  | error
  | notModelled
  deriving DecidableEq, Repr

/-- The part of `parse` of `net/url` that follows the query, for a URL with a scheme: the
authority runs from `//` to the next `/`, and the rest is the path.  Modelled for an
authority that is a plain host name. -/
def parseAuthorityAndPath (scheme : List Char) (forceQuery : Bool) (rawQuery : List Char)
    (rest : List Char) : Parsed :=
  match rest with
  | '/' :: '/' :: authorityAndPath =>
    let (authority, path) := authorityAndPath.span (fun c => c ≠ '/')
    if plainHost authority then
      let url : URL :=
        { Scheme := scheme.map toLowerChar, Host := authority, Path := [], RawPath := []
          ForceQuery := forceQuery, RawQuery := rawQuery, Fragment := [], RawFragment := [] }
      match url.setPath path with
      | none => .error
      | some url => .url url
    else .notModelled
  | _ => .notModelled

/-- The function `parse(rawURL, false)` of `net/url`, which parses a raw URL without
fragment: it must hold no control character, the scheme ends at the first colon and is
lower-cased, and the query is cut off at the first `?`.  Modelled for a raw URL with a
scheme. -/
def parse (rawURL : List Char) : Parsed :=
  if rawURL.any (fun c => c.toNat < 32 ∨ c.toNat = 127) then .error
  else
    match getScheme rawURL with
    | none => .error
    | some (scheme, rest) =>
      if scheme = [] then .notModelled
      else if rest.getLast? = some '?' ∧ rest.count '?' = 1 then
        parseAuthorityAndPath scheme true [] rest.dropLast
      else
        let r := Cut '?' rest
        parseAuthorityAndPath scheme false r.2.1 r.1

/-- The function `url.Parse(rawURL)`: the fragment is cut off at the first `#`, the part
before it is parsed by `parse`, and the fragment, when there is one, is set on the result.
It is modelled for the raw URLs `scheme://host/path?query#fragment` whose authority is a
plain host name, which every URL the program builds is, whatever the identifiers put into
it. -/
def Parse (rawURL : List Char) : Parsed :=
  let (u, frag, _) := Cut '#' rawURL
  match parse u with
  | .url url =>
    if frag = [] then .url url
    else
      match url.setFragment frag with
      | none => .error
      | some url => .url url
  | .error => .error
  | .notModelled => .notModelled

/-- The URL of a request made from a raw URL that `url.Parse` accepts, as `URL.String`
prints it.  A raw URL that `url.Parse` rejects makes no request, and one outside the model
is left as it is written. -/
def requestURL (rawURL : String) : String :=
  match Parse rawURL.data with
  | .url u => u.String
  | _ => rawURL

/-- Whether URL path escaping leaves the character as it is: the ASCII letters and digits
and `- _ . ~ $ & + , / : ; = @`. -/
def pathSafe (c : Char) : Bool :=
  c.toNat < 128 && !shouldEscape c.toNat .encodePath

/-! ## The functions of `main.go` -/

/-- The function `sendTelegramMessage` (main.go, lines 24-34). -/
def sendTelegramMessage (w : World) (botToken chatID message : String) :
    Option String × World :=
  let w := w.emit (.sendTelegramMessage botToken chatID message)
  let w := w.emit (.notifySend chatID "DNS Update Notification" message)
  (w.send w.calls, { w with calls := w.calls + 1 })

/-- The function `checkIP` (main.go, lines 36-43); `||` does not evaluate
`resp.StatusCode` when `err` is non-nil. -/
def checkIP (w : World) (ip domain : String) : Bool × World :=
  let w := w.emit (.checkIP ip domain)
  let url := "http://" ++ ip
  let w := w.emit (.httpGet url)
  let (res, w) := w.exchange
  match res with
  | .fail _ _ => (false, w)
  | .ok resp => if resp.StatusCode ≠ 200 then (false, w) else (true, w)

/-- The call `http.NewRequest(method, url, body)`: it fails on a URL that `url.Parse`
rejects, and otherwise returns a request that carries the parsed URL and has no header
set. -/
def NewRequest (w : World) (method url body : String) : Except String Request :=
  match w.urlErr url with
  | some err => .error err
  | none => .ok { Method := method, URL := requestURL url, Header := [], Body := body }

/-- The function `updateDNSRecord` (main.go, lines 45-77); `none` is the nil error. -/
def updateDNSRecord (w : World) (apiToken zoneID recordID ip domain : String) :
    Option String × World :=
  let w := w.emit (.updateDNSRecord apiToken zoneID recordID ip domain)
  let url := "https://api.cloudflare.com/client/v4/zones/" ++ zoneID ++ "/dns_records/"
    ++ recordID
  let record : DNSRecord := { Type_ := "A", Name := domain, Content := ip, TTL := 120 }
  let jsonData := jsonMarshal record
  match NewRequest w "PUT" url jsonData with
  | .error err => (some err, w)
  | .ok req =>
    let req := { req with Header := req.Header.Set "Authorization" ("Bearer " ++ apiToken) }
    let req := { req with Header := req.Header.Set "Content-Type" "application/json" }
    let w := w.emit (.httpDo req)
    let (res, w) := w.exchange
    match res with
    | .fail _ err => (some err, w)
    | .ok resp =>
      if resp.StatusCode ≠ 200 then
        (some ("failed to update DNS record, status code: " ++ toString resp.StatusCode), w)
      else
        (none, w)

/-- The loop `for _, recordID := range recordIDs` of `monitorIPs` (main.go, lines 89-96). -/
def updateRecords (apiToken zoneID nextIP domain : String) :
    List String → World → World
  | [], w => w
  | recordID :: rest, w =>
    let (err, w) := updateDNSRecord w apiToken zoneID recordID nextIP domain
    let w :=
      match err with
      | some e => w.emit (.logPrintf ("Error updating DNS record: " ++ e ++ "\n"))
      | none => w.emit (.logPrintf ("DNS record updated to: " ++ nextIP ++ "\n"))
    updateRecords apiToken zoneID nextIP domain rest w

/-- One iteration of the `for` loop of `monitorIPs` (main.go, lines 82-104): from the
index at the start of the iteration to the index at its end. -/
def tick (apiToken zoneID : String) (recordIDs ips : List String) (domain : String)
    (currentIndex : Nat) (w : World) : Except Panic (Nat × World) :=
  match ips[currentIndex]? with
  | none => .error (.indexOutOfRange currentIndex ips.length)
  | some currentIP =>
    let (up, w) := checkIP w currentIP domain
    if !up then
      let w := w.emit (.logPrintf ("IP " ++ currentIP ++ " is down, checking next IP...\n"))
      if ips.length = 0 then .error .divideByZero
      else
        let nextIndex := (currentIndex + 1) % ips.length
        match ips[nextIndex]? with
        | none => .error (.indexOutOfRange nextIndex ips.length)
        | some nextIP =>
          let (nextUp, w) := checkIP w nextIP domain
          if nextUp then
            let w := w.emit (.logPrintf
              ("Next IP " ++ nextIP ++ " is online, updating DNS records...\n"))
            let w := updateRecords apiToken zoneID nextIP domain recordIDs w
            .ok (nextIndex, w.emit (.sleep 30))
          else
            let w := w.emit (.logPrintf
              ("Next IP " ++ nextIP ++ " is also down, not updating DNS records.\n"))
            .ok (currentIndex, w.emit (.sleep 30))
    else
      let w := w.emit (.logPrintf ("IP " ++ currentIP ++ " is online, no action needed.\n"))
      .ok (currentIndex, w.emit (.sleep 30))

/-- The iterations of the loop from a given index: `n` of them. -/
def loop (apiToken zoneID : String) (recordIDs ips : List String) (domain : String) :
    Nat → Nat → World → Except Panic (Nat × World)
  | 0, currentIndex, w => .ok (currentIndex, w)
  | n + 1, currentIndex, w =>
    match tick apiToken zoneID recordIDs ips domain currentIndex w with
    | .error p => .error p
    | .ok (i, w) => loop apiToken zoneID recordIDs ips domain n i w

/-- The function `monitorIPs` (main.go, lines 79-106), which never returns, after its
first `n` iterations: `currentIndex := 0`, then the loop. -/
def monitorIPs (n : Nat) (apiToken zoneID : String) (recordIDs ips : List String)
    (domain : String) (w : World) : Except Panic (Nat × World) :=
  loop apiToken zoneID recordIDs ips domain n 0 w

/-- How `main` ends up: stopped by `log.Fatal`, or blocked forever with `monitorIPs`
started on the given arguments. -/
inductive MainOutcome where
  | fatal (msg : String)
  | monitoring (apiToken zoneID : String) (recordIDs ips : List String) (domain : String)
  deriving DecidableEq, Repr

/-- The function `main` (main.go, lines 108-124); `env` is `os.Getenv`, which gives the
empty string for a variable that is not set. -/
def main (env : String → String) : MainOutcome :=
  let apiToken := env "CLOUDFLARE_API_TOKEN"
  let zoneID := env "CLOUDFLARE_ZONE_ID"
  let recordIDs := Split (env "CLOUDFLARE_RECORD_IDS") ','
  let ips := Split (env "MONITOR_IPS") ','
  let domain := env "DOMAIN"
  if apiToken = "" ∨ zoneID = "" ∨ recordIDs.length = 0 ∨ ips.length = 0 ∨ domain = "" then
    .fatal ("Environment variables CLOUDFLARE_API_TOKEN, CLOUDFLARE_ZONE_ID, "
      ++ "CLOUDFLARE_RECORD_IDS, MONITOR_IPS, and DOMAIN must be set")
  else
    .monitoring apiToken zoneID recordIDs ips domain

/-! ## Reading a trace -/

/-- The calls of `updateDNSRecord` in a trace, in order, each with its arguments
`(apiToken, zoneID, recordID, ip, domain)`. -/
def updateCalls (t : List Event) : List (String × String × String × String × String) :=
  t.filterMap fun
    | .updateDNSRecord a z r i d => some (a, z, r, i, d)
    | _ => none

/-- The calls of `checkIP` in a trace, in order, each with its arguments `(ip, domain)`. -/
def probeCalls (t : List Event) : List (String × String) :=
  t.filterMap fun
    | .checkIP i d => some (i, d)
    | _ => none

/-- The calls of `sendTelegramMessage` in a trace, in order. -/
def notifyCalls (t : List Event) : List (String × String × String) :=
  t.filterMap fun
    | .sendTelegramMessage b c m => some (b, c, m)
    | _ => none

/-- The requests handed to `client.Do` in a trace, in order. -/
def sentRequests (t : List Event) : List Request :=
  t.filterMap fun
    | .httpDo req => some req
    | _ => none


/-! ## Sample worlds and environments -/

/-- A world whose first exchange fails and whose every later exchange answers 200. -/
def worldDownUp : World :=
  { http := fun k =>
      if k = 0 then .fail none "connection refused" else .ok { StatusCode := 200 }
    urlErr := fun _ => none
    send := fun _ => none
    calls := 0
    trace := [] }

/-- A world whose every exchange answers 200. -/
def worldUp : World :=
  { http := fun _ => .ok { StatusCode := 200 }
    urlErr := fun _ => none
    send := fun _ => none
    calls := 0
    trace := [] }

/-- A world whose every exchange fails. -/
def worldDown : World :=
  { http := fun _ => .fail none "connection refused"
    urlErr := fun _ => none
    send := fun _ => none
    calls := 0
    trace := [] }

/-- An environment with every variable of the program set but `CLOUDFLARE_RECORD_IDS`. -/
def envNoRecordIDs : String → String := fun name =>
  if name = "CLOUDFLARE_API_TOKEN" then "token"
  else if name = "CLOUDFLARE_ZONE_ID" then "zone"
  else if name = "MONITOR_IPS" then "192.0.2.1,192.0.2.2"
  else if name = "DOMAIN" then "example.com"
  else ""

/-! ## Lemmas on the world and the trace -/

@[simp]
theorem emit_trace (w : World) (e : Event) : (w.emit e).trace = w.trace ++ [e] := rfl

@[simp]
theorem emit_calls (w : World) (e : Event) : (w.emit e).calls = w.calls := rfl

@[simp]
theorem emit_http (w : World) (e : Event) : (w.emit e).http = w.http := rfl

@[simp]
theorem emit_urlErr (w : World) (e : Event) : (w.emit e).urlErr = w.urlErr := rfl

theorem checkIP_fst (w : World) (ip domain : String) :
    (checkIP w ip domain).1 =
      match w.http w.calls with
      | .fail _ _ => false
      | .ok resp => decide (resp.StatusCode = 200) := by
  unfold checkIP
  simp only [World.exchange, emit_http, emit_calls]
  cases h : w.http w.calls with
  | ok resp => by_cases hs : resp.StatusCode = 200 <;> simp [hs]
  | fail r e => simp

theorem checkIP_snd (w : World) (ip domain : String) :
    (checkIP w ip domain).2 =
      { w with calls := w.calls + 1
               trace := w.trace ++ [.checkIP ip domain, .httpGet ("http://" ++ ip)] } := by
  unfold checkIP
  simp only [World.exchange, emit_http, emit_calls]
  cases h : w.http w.calls with
  | ok resp => by_cases hs : resp.StatusCode = 200 <;> simp [hs, World.emit]
  | fail r e => simp [World.emit]


theorem updateCalls_append (s t : List Event) :
    updateCalls (s ++ t) = updateCalls s ++ updateCalls t := by
  simp [updateCalls, List.filterMap_append]

theorem probeCalls_append (s t : List Event) :
    probeCalls (s ++ t) = probeCalls s ++ probeCalls t := by
  simp [probeCalls, List.filterMap_append]

theorem notifyCalls_append (s t : List Event) :
    notifyCalls (s ++ t) = notifyCalls s ++ notifyCalls t := by
  simp [notifyCalls, List.filterMap_append]

theorem sentRequests_append (s t : List Event) :
    sentRequests (s ++ t) = sentRequests s ++ sentRequests t := by
  simp [sentRequests, List.filterMap_append]

/-- The request `updateDNSRecord` hands to `client.Do`. -/
theorem updateDNSRecord_snd_ok (w : World) (apiToken zoneID recordID ip domain : String)
    (h : w.urlErr ("https://api.cloudflare.com/client/v4/zones/" ++ zoneID ++ "/dns_records/"
      ++ recordID) = none) :
    (updateDNSRecord w apiToken zoneID recordID ip domain).2 =
      { w with
        calls := w.calls + 1
        trace := w.trace ++ [.updateDNSRecord apiToken zoneID recordID ip domain,
          .httpDo
            { Method := "PUT"
              URL := requestURL ("https://api.cloudflare.com/client/v4/zones/" ++ zoneID
                ++ "/dns_records/" ++ recordID)
              Header := (Header.Set [] "Authorization" ("Bearer " ++ apiToken)).Set
                "Content-Type" "application/json"
              Body := jsonMarshal
                { Type_ := "A", Name := domain, Content := ip, TTL := 120 } }] } := by
  unfold updateDNSRecord
  simp only [NewRequest, emit_urlErr, h, World.exchange, emit_http, emit_calls]
  cases hr : w.http w.calls with
  | ok resp => by_cases hs : resp.StatusCode = 200 <;> simp [hs, World.emit]
  | fail r e => simp [World.emit]

theorem updateDNSRecord_err (w : World) (apiToken zoneID recordID ip domain err : String)
    (h : w.urlErr ("https://api.cloudflare.com/client/v4/zones/" ++ zoneID ++ "/dns_records/"
      ++ recordID) = some err) :
    updateDNSRecord w apiToken zoneID recordID ip domain =
      (some err, w.emit (.updateDNSRecord apiToken zoneID recordID ip domain)) := by
  unfold updateDNSRecord
  simp only [NewRequest, emit_urlErr, h]

theorem updateDNSRecord_updateCalls (w : World) (apiToken zoneID recordID ip domain : String) :
    updateCalls (updateDNSRecord w apiToken zoneID recordID ip domain).2.trace =
      updateCalls w.trace ++ [(apiToken, zoneID, recordID, ip, domain)] := by
  cases h : w.urlErr ("https://api.cloudflare.com/client/v4/zones/" ++ zoneID
      ++ "/dns_records/" ++ recordID) with
  | none => rw [updateDNSRecord_snd_ok w _ _ _ _ _ h]; simp [updateCalls, List.filterMap_append]
  | some e => rw [updateDNSRecord_err w _ _ _ _ _ e h]; simp [updateCalls, List.filterMap_append]

theorem updateDNSRecord_notifyCalls (w : World) (apiToken zoneID recordID ip domain : String) :
    notifyCalls (updateDNSRecord w apiToken zoneID recordID ip domain).2.trace =
      notifyCalls w.trace := by
  cases h : w.urlErr ("https://api.cloudflare.com/client/v4/zones/" ++ zoneID
      ++ "/dns_records/" ++ recordID) with
  | none => rw [updateDNSRecord_snd_ok w _ _ _ _ _ h]; simp [notifyCalls, List.filterMap_append]
  | some e => rw [updateDNSRecord_err w _ _ _ _ _ e h]; simp [notifyCalls, List.filterMap_append]

theorem updateRecords_updateCalls (apiToken zoneID nextIP domain : String)
    (recordIDs : List String) (w : World) :
    updateCalls (updateRecords apiToken zoneID nextIP domain recordIDs w).trace =
      updateCalls w.trace
        ++ recordIDs.map (fun recordID => (apiToken, zoneID, recordID, nextIP, domain)) := by
  induction recordIDs generalizing w with
  | nil => simp [updateRecords]
  | cons r rest ih =>
    have hu := updateDNSRecord_updateCalls w apiToken zoneID r nextIP domain
    unfold updateRecords
    cases he : (updateDNSRecord w apiToken zoneID r nextIP domain).1 with
    | none =>
      simp only [he]
      rw [ih]
      simp only [emit_trace, updateCalls_append]
      rw [hu]
      simp [updateCalls]
    | some e =>
      simp only [he]
      rw [ih]
      simp only [emit_trace, updateCalls_append]
      rw [hu]
      simp [updateCalls]

theorem updateRecords_notifyCalls (apiToken zoneID nextIP domain : String)
    (recordIDs : List String) (w : World) :
    notifyCalls (updateRecords apiToken zoneID nextIP domain recordIDs w).trace =
      notifyCalls w.trace := by
  induction recordIDs generalizing w with
  | nil => simp [updateRecords]
  | cons r rest ih =>
    have hu := updateDNSRecord_notifyCalls w apiToken zoneID r nextIP domain
    unfold updateRecords
    cases he : (updateDNSRecord w apiToken zoneID r nextIP domain).1 with
    | none =>
      simp only [he]
      rw [ih]
      simp only [emit_trace, notifyCalls_append]
      rw [hu]
      simp [notifyCalls]
    | some e =>
      simp only [he]
      rw [ih]
      simp only [emit_trace, notifyCalls_append]
      rw [hu]
      simp [notifyCalls]


theorem checkIP_fst_emit (w : World) (e : Event) (ip domain : String) :
    (checkIP (w.emit e) ip domain).1 = (checkIP w ip domain).1 := by
  rw [checkIP_fst, checkIP_fst]; rfl

theorem length_pos_of_getElem? {ips : List String} {cur : Nat} {ip : String}
    (h : ips[cur]? = some ip) : cur < ips.length := by
  rcases List.getElem?_eq_some.mp h with ⟨hlt, _⟩
  exact hlt

/-- The branch of `tick` taken when the current address answers. -/
theorem tick_of_up (apiToken zoneID domain currentIP : String) (recordIDs ips : List String)
    (cur : Nat) (w : World) (hcur : ips[cur]? = some currentIP)
    (hup : (checkIP w currentIP domain).1 = true) :
    tick apiToken zoneID recordIDs ips domain cur w =
      .ok (cur, (((checkIP w currentIP domain).2.emit
        (.logPrintf ("IP " ++ currentIP ++ " is online, no action needed.\n"))).emit
        (.sleep 30))) := by
  unfold tick
  simp only [hcur]
  rcases hc : checkIP w currentIP domain with ⟨up, w1⟩
  rw [hc] at hup
  simp only at hup
  subst hup
  simp

/-- The branch of `tick` taken when neither the current nor the next address answers. -/
theorem tick_of_both_down (apiToken zoneID domain currentIP nextIP : String)
    (recordIDs ips : List String) (cur : Nat) (w : World)
    (hcur : ips[cur]? = some currentIP)
    (hnext : ips[(cur + 1) % ips.length]? = some nextIP)
    (hdown : (checkIP w currentIP domain).1 = false)
    (hdown2 : (checkIP (checkIP w currentIP domain).2 nextIP domain).1 = false) :
    tick apiToken zoneID recordIDs ips domain cur w =
      .ok (cur, (((checkIP ((checkIP w currentIP domain).2.emit
        (.logPrintf ("IP " ++ currentIP ++ " is down, checking next IP...\n")))
          nextIP domain).2.emit
        (.logPrintf ("Next IP " ++ nextIP ++ " is also down, not updating DNS records.\n"))).emit
        (.sleep 30))) := by
  have hlen : ips.length ≠ 0 := by
    have := length_pos_of_getElem? hcur
    omega
  unfold tick
  simp only [hcur]
  rcases hc : checkIP w currentIP domain with ⟨up, w1⟩
  rw [hc] at hdown hdown2
  simp only at hdown hdown2
  subst hdown
  simp only [Bool.not_false, if_true, hlen, if_false, hnext]
  rw [← checkIP_fst_emit w1 (.logPrintf ("IP " ++ currentIP ++ " is down, checking next IP...\n"))]
    at hdown2
  rcases hc2 : checkIP (w1.emit (.logPrintf ("IP " ++ currentIP
    ++ " is down, checking next IP...\n"))) nextIP domain with ⟨up2, w2⟩
  rw [hc2] at hdown2
  simp only at hdown2
  subst hdown2
  simp

/-- The branch of `tick` taken when the current address is down and the next one answers. -/
theorem tick_of_next_up (apiToken zoneID domain currentIP nextIP : String)
    (recordIDs ips : List String) (cur : Nat) (w : World)
    (hcur : ips[cur]? = some currentIP)
    (hnext : ips[(cur + 1) % ips.length]? = some nextIP)
    (hdown : (checkIP w currentIP domain).1 = false)
    (hup : (checkIP (checkIP w currentIP domain).2 nextIP domain).1 = true) :
    tick apiToken zoneID recordIDs ips domain cur w =
      .ok ((cur + 1) % ips.length,
        (updateRecords apiToken zoneID nextIP domain recordIDs
          ((checkIP ((checkIP w currentIP domain).2.emit
            (.logPrintf ("IP " ++ currentIP ++ " is down, checking next IP...\n")))
              nextIP domain).2.emit
            (.logPrintf ("Next IP " ++ nextIP ++ " is online, updating DNS records...\n")))).emit
          (.sleep 30)) := by
  have hlen : ips.length ≠ 0 := by
    have := length_pos_of_getElem? hcur
    omega
  unfold tick
  simp only [hcur]
  rcases hc : checkIP w currentIP domain with ⟨up, w1⟩
  rw [hc] at hdown hup
  simp only at hdown hup
  subst hdown
  simp only [Bool.not_false, if_true, hlen, if_false, hnext]
  rw [← checkIP_fst_emit w1 (.logPrintf ("IP " ++ currentIP ++ " is down, checking next IP...\n"))]
    at hup
  rcases hc2 : checkIP (w1.emit (.logPrintf ("IP " ++ currentIP
    ++ " is down, checking next IP...\n"))) nextIP domain with ⟨up2, w2⟩
  rw [hc2] at hup
  simp only at hup
  subst hup
  simp

/-! ## Lemmas on the URL of a request -/

theorem Cut_of_not_mem (sep : Char) (l : List Char) (h : sep ∉ l) :
    Cut sep l = (l, [], false) := by
  induction l with
  | nil => rfl
  | cons c cs ih =>
    have hc : c ≠ sep := fun e => h (e ▸ List.mem_cons_self c cs)
    have hcs : sep ∉ cs := fun m => h (List.mem_cons_of_mem c m)
    simp [Cut, hc, ih hcs]

theorem pathSafe_lt (c : Char) (h : pathSafe c = true) : c.toNat < 128 := by
  unfold pathSafe at h
  simp only [Bool.and_eq_true, decide_eq_true_eq] at h
  exact h.1

theorem pathSafe_not_escaped (c : Char) (h : pathSafe c = true) :
    shouldEscape c.toNat .encodePath = false := by
  unfold pathSafe at h
  simp only [Bool.and_eq_true, Bool.not_eq_true'] at h
  exact h.2

theorem shouldEscape_path_special (n : Nat)
    (h : n < 32 ∨ n = 127 ∨ n = 35 ∨ n = 37 ∨ n = 63) :
    shouldEscape n .encodePath = true := by
  unfold shouldEscape
  have h1 : ¬ ((97 ≤ n ∧ n ≤ 122) ∨ (65 ≤ n ∧ n ≤ 90) ∨ (48 ≤ n ∧ n ≤ 57)) := by omega
  have h2 : ¬ (n = 45 ∨ n = 95 ∨ n = 46 ∨ n = 126) := by omega
  simp only [h1, h2, if_false]
  by_cases h3 : n = 63
  · subst h3; simp
  · have h4 : ¬ (n = 36 ∨ n = 38 ∨ n = 43 ∨ n = 44 ∨ n = 47 ∨ n = 58 ∨ n = 59 ∨ n = 61
        ∨ n = 63 ∨ n = 64) := by omega
    simp [h4]

theorem pathSafe_not_special (c : Char) (h : pathSafe c = true) :
    ¬ (c.toNat < 32 ∨ c.toNat = 127 ∨ c.toNat = 35 ∨ c.toNat = 37 ∨ c.toNat = 63) := by
  intro hs
  have := shouldEscape_path_special c.toNat hs
  rw [pathSafe_not_escaped c h] at this
  exact Bool.noConfusion this

theorem utf8Bytes_of_pathSafe (l : List Char) (h : ∀ c ∈ l, pathSafe c = true) :
    utf8Bytes l = l.map Char.toNat := by
  induction l with
  | nil => rfl
  | cons c cs ih =>
    have hc := pathSafe_lt c (h c (List.mem_cons_self c cs))
    have ht := ih (fun d hd => h d (List.mem_cons_of_mem c hd))
    unfold utf8Bytes at ht ⊢
    simp only [List.flatMap_cons, ht, utf8, hc, if_true, List.map_cons, List.singleton_append]

theorem unescape_of_no_percent (l : List Nat) (h : 37 ∉ l) : unescape l = some l := by
  induction l with
  | nil => rfl
  | cons c cs ih =>
    have hc : c ≠ 37 := fun e => h (e ▸ List.mem_cons_self c cs)
    have ht := ih (fun m => h (List.mem_cons_of_mem c m))
    unfold unescape
    simp only [hc, if_false, ht, Option.map_some']

theorem unescape_of_pathSafe (l : List Char) (h : ∀ c ∈ l, pathSafe c = true) :
    unescape (l.map Char.toNat) = some (l.map Char.toNat) := by
  apply unescape_of_no_percent
  intro hm
  rcases List.mem_map.mp hm with ⟨c, hc, he⟩
  exact pathSafe_not_special c (h c hc) (by omega)

theorem escape_of_pathSafe (l : List Char) (h : ∀ c ∈ l, pathSafe c = true) :
    escape .encodePath (l.map Char.toNat) = l := by
  induction l with
  | nil => rfl
  | cons c cs ih =>
    have hc := pathSafe_not_escaped c (h c (List.mem_cons_self c cs))
    have ht := ih (fun d hd => h d (List.mem_cons_of_mem c hd))
    simp [escape, hc, ht, Char.ofNat_toNat]

theorem not_mem_of_pathSafe (l : List Char) (h : ∀ c ∈ l, pathSafe c = true) (sep : Char)
    (hs : sep.toNat = 35 ∨ sep.toNat = 63) : sep ∉ l := by
  intro hm
  exact pathSafe_not_special sep (h sep hm) (by omega)


/-- What `Parse` gives for a raw URL without fragment, query or escape. -/
theorem Parse_of_parts (rawURL scheme ap authority path : List Char)
    (hraw : ∀ c ∈ rawURL, pathSafe c = true)
    (hscheme : getScheme rawURL = some (scheme, '/' :: '/' :: ap))
    (hne : scheme ≠ [])
    (hq : '?' ∉ ap)
    (hspan : ap.span (fun c => c ≠ '/') = (authority, path))
    (hhost : plainHost authority = true)
    (hpath : ∀ c ∈ path, pathSafe c = true) :
    Parse rawURL =
      .url
        { Scheme := scheme.map toLowerChar
          Host := authority
          Path := path.map Char.toNat
          RawPath := []
          ForceQuery := false
          RawQuery := []
          Fragment := []
          RawFragment := [] } := by
  have hcut : Cut '#' rawURL = (rawURL, [], false) :=
    Cut_of_not_mem _ _ (not_mem_of_pathSafe _ hraw '#' (Or.inl rfl))
  have hctl : rawURL.any (fun c => decide (c.toNat < 32 ∨ c.toNat = 127)) = false := by
    rw [List.any_eq_false]
    intro c hc
    have := pathSafe_not_special c (hraw c hc)
    simp only [decide_eq_true_eq]
    omega
  have hq2 : '?' ∉ '/' :: '/' :: ap := by
    intro hm
    rcases List.mem_cons.mp hm with h1 | h1
    · exact absurd h1 (by decide)
    · rcases List.mem_cons.mp h1 with h2 | h2
      · exact absurd h2 (by decide)
      · exact hq h2
  have hcount : ¬ (('/' :: '/' :: ap).getLast? = some '?'
      ∧ ('/' :: '/' :: ap).count '?' = 1) := by
    rw [List.count_eq_zero_of_not_mem hq2]
    exact fun h => absurd h.2 (by decide)
  have hcutq : Cut '?' ('/' :: '/' :: ap) = ('/' :: '/' :: ap, [], false) :=
    Cut_of_not_mem _ _ hq2
  have hsetPath : ∀ u : URL, u.setPath path
      = some { u with Path := path.map Char.toNat, RawPath := [] } := by
    intro u
    unfold URL.setPath
    rw [utf8Bytes_of_pathSafe _ hpath, unescape_of_pathSafe _ hpath]
    simp only [escape_of_pathSafe _ hpath, if_true]
  have hparse : parse rawURL =
      .url
        { Scheme := scheme.map toLowerChar, Host := authority, Path := path.map Char.toNat
          RawPath := [], ForceQuery := false, RawQuery := [], Fragment := []
          RawFragment := [] } := by
    unfold parse
    simp only [hctl, hscheme, hne, hcount, hcutq, if_false, Bool.false_eq_true]
    unfold parseAuthorityAndPath
    simp only [hspan, hhost, hsetPath, if_true]
  unfold Parse
  simp only [hcut, hparse, if_true]

theorem Cut_append_of_not_mem (sep : Char) (p l : List Char) (h : sep ∉ p) :
    Cut sep (p ++ l) = (p ++ (Cut sep l).1, (Cut sep l).2.1, (Cut sep l).2.2) := by
  induction p with
  | nil => rfl
  | cons c cs ih =>
    have hc : c ≠ sep := fun e => h (e ▸ List.mem_cons_self c cs)
    have hcs : sep ∉ cs := fun m => h (List.mem_cons_of_mem c m)
    simp [Cut, hc, ih hcs]

/-- After the provider address the authority is the host name of the provider, whatever
follows: this part of the parse never leaves the model. -/
theorem parseAuthorityAndPath_modelled (scheme rawQuery t : List Char) (forceQuery : Bool) :
    parseAuthorityAndPath scheme forceQuery rawQuery
      ("//api.cloudflare.com/client/v4/zones/".data ++ t) ≠ .notModelled := by
  have hspan : ("api.cloudflare.com/client/v4/zones/".data ++ t).span (fun c => c ≠ '/')
      = ("api.cloudflare.com".data, "/client/v4/zones/".data ++ t) := rfl
  have hhost : plainHost "api.cloudflare.com".data = true := by decide
  show parseAuthorityAndPath scheme forceQuery rawQuery
    ('/' :: '/' :: ("api.cloudflare.com/client/v4/zones/".data ++ t)) ≠ .notModelled
  unfold parseAuthorityAndPath
  simp only [hspan, hhost, if_true]
  split <;> simp

/-- Every URL the program builds is inside the model of `Parse`, whatever the zone and
record identifiers hold. -/
theorem Parse_program_url_modelled (tail : List Char) :
    Parse ("https://api.cloudflare.com/client/v4/zones/".data ++ tail) ≠ .notModelled := by
  have hcut := Cut_append_of_not_mem '#' "https://api.cloudflare.com/client/v4/zones/".data
    tail (by decide)
  have hparse : ∀ t : List Char,
      parse ("https://api.cloudflare.com/client/v4/zones/".data ++ t) ≠ .notModelled := by
    intro t
    have hscheme : getScheme ("https://api.cloudflare.com/client/v4/zones/".data ++ t)
        = some ("https".data, "//api.cloudflare.com/client/v4/zones/".data ++ t) := rfl
    have hne : "https".data ≠ [] := by decide
    have hcutq := Cut_append_of_not_mem '?' "//api.cloudflare.com/client/v4/zones/".data t
      (by decide)
    unfold parse
    split
    · simp
    · simp only [hscheme, hne, if_false]
      split
      · rename_i hcond
        have ht : t ≠ [] := by
          intro he
          subst he
          exact absurd hcond.1 (by decide)
        rw [List.dropLast_append_of_ne_nil _ ht]
        exact parseAuthorityAndPath_modelled _ _ _ _
      · rw [hcutq]
        exact parseAuthorityAndPath_modelled _ _ _ _
  unfold Parse
  simp only [hcut]
  have := hparse (Cut '#' tail).1
  split
  · split
    · simp
    · split <;> simp
  · simp
  · rename_i h
    exact absurd h this

/-- A raw URL made of the provider address and characters that path escaping leaves as they
are is printed as it is written. -/
theorem requestURL_of_pathSafe (tail : String) (h : ∀ c ∈ tail.data, pathSafe c = true) :
    requestURL ("https://api.cloudflare.com/client/v4/zones/" ++ tail)
      = "https://api.cloudflare.com/client/v4/zones/" ++ tail := by
  have hraw : ∀ c ∈ "https://api.cloudflare.com/client/v4/zones/".data ++ tail.data,
      pathSafe c = true := by
    intro c hc
    rcases List.mem_append.mp hc with hp | ht
    · exact (by decide : ∀ c ∈ "https://api.cloudflare.com/client/v4/zones/".data,
        pathSafe c = true) c hp
    · exact h c ht
  have hap : ∀ c ∈ "api.cloudflare.com/client/v4/zones/".data ++ tail.data,
      pathSafe c = true := by
    intro c hc
    rcases List.mem_append.mp hc with hp | ht
    · exact (by decide : ∀ c ∈ "api.cloudflare.com/client/v4/zones/".data,
        pathSafe c = true) c hp
    · exact h c ht
  have hpath : ∀ c ∈ "/client/v4/zones/".data ++ tail.data, pathSafe c = true := by
    intro c hc
    rcases List.mem_append.mp hc with hp | ht
    · exact (by decide : ∀ c ∈ "/client/v4/zones/".data, pathSafe c = true) c hp
    · exact h c ht
  have hparse := Parse_of_parts
    ("https://api.cloudflare.com/client/v4/zones/".data ++ tail.data) "https".data
    ("api.cloudflare.com/client/v4/zones/".data ++ tail.data) "api.cloudflare.com".data
    ("/client/v4/zones/".data ++ tail.data) hraw rfl (by decide)
    (not_mem_of_pathSafe _ hap '?' (Or.inr rfl)) rfl (by decide) hpath
  unfold requestURL
  rw [String.data_append, hparse]
  apply String.ext
  have hesc := escape_of_pathSafe _ hpath
  have hstar : List.map Char.toNat ("/client/v4/zones/".data ++ tail.data) ≠ [42] := by
    intro he
    have h0 : some (47 : Nat) = some 42 := congrArg List.head? he
    exact absurd h0 (by decide)
  have hlower : List.map toLowerChar "https".data = "https".data := by decide
  simp only [URL.String, URL.EscapedPath, hesc, hstar, hlower, String.data_append]
  simp

/-! ## Lemmas on the JSON encoding -/

theorem flatMap_jsonEscapeChar_of_safe (cs : List Char) (h : ∀ c ∈ cs, jsonSafe c = true) :
    cs.flatMap jsonEscapeChar = cs := by
  induction cs with
  | nil => rfl
  | cons c cs ih =>
    have hc : jsonSafe c = true := h c (List.mem_cons_self c cs)
    have ht : cs.flatMap jsonEscapeChar = cs := ih (fun d hd => h d (List.mem_cons_of_mem c hd))
    simp only [List.flatMap_cons, ht, jsonEscapeChar, hc, if_true, List.singleton_append]

theorem jsonString_of_safe (s : String) (h : ∀ c ∈ s.data, jsonSafe c = true) :
    jsonString s = "\"" ++ s ++ "\"" := by
  unfold jsonString
  rw [flatMap_jsonEscapeChar_of_safe s.data h]

theorem jsonMarshal_of_safe (domain ip : String) (hd : ∀ c ∈ domain.data, jsonSafe c = true)
    (hi : ∀ c ∈ ip.data, jsonSafe c = true) :
    jsonMarshal { Type_ := "A", Name := domain, Content := ip, TTL := 120 } =
      "\x7b\"type\":\"A\",\"name\":\"" ++ domain ++ "\",\"content\":\"" ++ ip
        ++ "\",\"ttl\":120\x7d" := by
  unfold jsonMarshal
  simp only [jsonString_of_safe domain hd, jsonString_of_safe ip hi]
  have hA : jsonString "A" = "\"A\"" := by decide
  have hT : toString (120 : Int) = "120" := by decide
  rw [hA, hT]
  apply String.ext
  simp only [String.data_append, List.append_assoc]
  rfl

/-! ## Lemmas on `strings.Split` and on notification -/

theorem splitChars_ne_nil (sep : Char) (cs : List Char) : splitChars sep cs ≠ [] := by
  induction cs with
  | nil => simp [splitChars]
  | cons c cs ih =>
    unfold splitChars
    by_cases h : c = sep
    · simp [h]
    · simp only [h, if_false]
      cases hs : splitChars sep cs with
      | nil => simp
      | cons piece rest => simp

/-- The result of `strings.Split` is never empty, so a test `len(...) == 0` on it is
never true. -/
theorem Split_length_pos (s : String) (sep : Char) : 0 < (Split s sep).length := by
  unfold Split
  rw [List.length_map]
  exact List.length_pos.mpr (splitChars_ne_nil sep s.data)

/-- No iteration of the loop calls `sendTelegramMessage`, whatever the probes and the
updates return. -/
theorem tick_never_notifies (apiToken zoneID domain : String) (recordIDs ips : List String)
    (cur i : Nat) (w w' : World)
    (h : tick apiToken zoneID recordIDs ips domain cur w = .ok (i, w')) :
    notifyCalls w'.trace = notifyCalls w.trace := by
  by_cases hlt : cur < ips.length
  · have hn : (cur + 1) % ips.length < ips.length := Nat.mod_lt _ (by omega)
    have h1 : ips[cur]? = some ips[cur] := List.getElem?_eq_getElem hlt
    have h2 : ips[(cur + 1) % ips.length]? = some ips[(cur + 1) % ips.length] :=
      List.getElem?_eq_getElem hn
    cases hc : (checkIP w ips[cur] domain).1 with
    | true =>
      rw [tick_of_up _ _ _ _ _ _ _ _ h1 hc] at h
      injection h with h
      injection h with _ hw
      subst hw
      simp [checkIP_snd, notifyCalls_append, notifyCalls]
    | false =>
      cases hc2 : (checkIP (checkIP w ips[cur] domain).2 ips[(cur + 1) % ips.length]
          domain).1 with
      | true =>
        rw [tick_of_next_up _ _ _ _ _ _ _ _ _ h1 h2 hc hc2] at h
        injection h with h
        injection h with _ hw
        subst hw
        simp only [emit_trace, notifyCalls_append, updateRecords_notifyCalls, checkIP_snd]
        simp [notifyCalls]
      | false =>
        rw [tick_of_both_down _ _ _ _ _ _ _ _ _ h1 h2 hc hc2] at h
        injection h with h
        injection h with _ hw
        subst hw
        simp [checkIP_snd, notifyCalls_append, notifyCalls]
  · have hnone : ips[cur]? = none := List.getElem?_eq_none (by omega)
    unfold tick at h
    simp [hnone] at h

/-! ## The failover loop -/

/-- C1: for every pool, every index `cur` with `ips[cur] = currentIP` and
`ips[(cur + 1) mod len(ips)] = nextIP`, every record list and every world (so every
outcome of the update calls): when the probe of `currentIP` is false and the probe of
`nextIP` that follows it is true, the tick completes, the calls of `updateDNSRecord` it adds
to the trace are exactly one per element of `recordIDs`, in list order, each with address
`nextIP`, and the index after the tick is `(cur + 1) mod len(ips)`. -/
theorem tick_failover_updates_every_record (apiToken zoneID domain currentIP nextIP : String)
    (recordIDs ips : List String) (cur : Nat) (w : World)
    (hcur : ips[cur]? = some currentIP)
    (hnext : ips[(cur + 1) % ips.length]? = some nextIP)
    (hdown : (checkIP w currentIP domain).1 = false)
    (hup : (checkIP (checkIP w currentIP domain).2 nextIP domain).1 = true) :
    ∃ w', tick apiToken zoneID recordIDs ips domain cur w = .ok ((cur + 1) % ips.length, w')
      ∧ updateCalls w'.trace = updateCalls w.trace
          ++ recordIDs.map (fun recordID => (apiToken, zoneID, recordID, nextIP, domain)) := by
  refine ⟨_, tick_of_next_up apiToken zoneID domain currentIP nextIP recordIDs ips cur w
    hcur hnext hdown hup, ?_⟩
  simp only [emit_trace, updateCalls_append, updateRecords_updateCalls, checkIP_snd]
  simp [updateCalls]

/-- Witness of C1: pool `[ip1, ip2]`, records `[r1, r2]`, `ip1` down and `ip2` up. -/
theorem tick_failover_updates_every_record_witness :
    ["ip1", "ip2"][0]? = some "ip1"
      ∧ ["ip1", "ip2"][(0 + 1) % ["ip1", "ip2"].length]? = some "ip2"
      ∧ (checkIP worldDownUp "ip1" "example.com").1 = false
      ∧ (checkIP (checkIP worldDownUp "ip1" "example.com").2 "ip2" "example.com").1 = true
      ∧ ∃ w', tick "tok" "zone" ["r1", "r2"] ["ip1", "ip2"] "example.com" 0 worldDownUp
            = .ok ((0 + 1) % ["ip1", "ip2"].length, w')
          ∧ updateCalls w'.trace = updateCalls worldDownUp.trace
              ++ ["r1", "r2"].map (fun recordID => ("tok", "zone", recordID, "ip2", "example.com")) :=
  ⟨rfl, rfl, rfl, rfl,
    tick_failover_updates_every_record "tok" "zone" "example.com" "ip1" "ip2" ["r1", "r2"]
      ["ip1", "ip2"] 0 worldDownUp rfl rfl rfl rfl⟩

/-- Every tick from an index inside the pool completes, and ends on the index it started
from or on the next one. -/
theorem tick_total (apiToken zoneID domain : String) (recordIDs ips : List String)
    (cur : Nat) (w : World) (hcur : cur < ips.length) :
    ∃ i w', tick apiToken zoneID recordIDs ips domain cur w = .ok (i, w')
      ∧ (i = cur ∨ i = (cur + 1) % ips.length) := by
  have hn : (cur + 1) % ips.length < ips.length := Nat.mod_lt _ (by omega)
  have h1 : ips[cur]? = some ips[cur] := List.getElem?_eq_getElem hcur
  have h2 : ips[(cur + 1) % ips.length]? = some ips[(cur + 1) % ips.length] :=
    List.getElem?_eq_getElem hn
  cases hc : (checkIP w ips[cur] domain).1 with
  | true => exact ⟨_, _, tick_of_up _ _ _ _ _ _ _ _ h1 hc, Or.inl rfl⟩
  | false =>
    cases hc2 : (checkIP (checkIP w ips[cur] domain).2 ips[(cur + 1) % ips.length] domain).1 with
    | true => exact ⟨_, _, tick_of_next_up _ _ _ _ _ _ _ _ _ h1 h2 hc hc2, Or.inr rfl⟩
    | false => exact ⟨_, _, tick_of_both_down _ _ _ _ _ _ _ _ _ h1 h2 hc hc2, Or.inl rfl⟩

/-- The loop keeps the index inside the pool and never panics. -/
theorem loop_index_in_range (apiToken zoneID domain : String) (recordIDs ips : List String)
    (n : Nat) : ∀ (cur : Nat) (w : World), cur < ips.length →
      ∃ i w', loop apiToken zoneID recordIDs ips domain n cur w = .ok (i, w')
        ∧ i < ips.length := by
  induction n with
  | zero => intro cur w hcur; exact ⟨cur, w, rfl, hcur⟩
  | succ n ih =>
    intro cur w hcur
    rcases tick_total apiToken zoneID domain recordIDs ips cur w hcur with ⟨i, w1, ht, hi⟩
    have hlt : i < ips.length := by
      rcases hi with h | h
      · omega
      · rw [h]; exact Nat.mod_lt _ (by omega)
    rcases ih i w1 hlt with ⟨j, w2, hl, hj⟩
    refine ⟨j, w2, ?_, hj⟩
    simp only [loop, ht, hl]

/-- C2: for every non-empty pool and every world (every sequence of probe and update
outcomes), the first `n` iterations of `monitorIPs`, started at index 0, all complete
without a panic, and the index after them is below `len(ips)`; the two lookups of the
next iteration, `ips[currentIndex]` and `ips[(currentIndex + 1) mod len(ips)]`, are in
range. -/
theorem monitorIPs_index_in_range (apiToken zoneID domain : String)
    (recordIDs ips : List String) (n : Nat) (w : World) (hne : ips ≠ []) :
    ∃ i w', monitorIPs n apiToken zoneID recordIDs ips domain w = .ok (i, w')
      ∧ i < ips.length
      ∧ (∃ currentIP, ips[i]? = some currentIP)
      ∧ (∃ nextIP, ips[(i + 1) % ips.length]? = some nextIP) := by
  have hpos : 0 < ips.length := List.length_pos.mpr hne
  rcases loop_index_in_range apiToken zoneID domain recordIDs ips n 0 w hpos with
    ⟨i, w1, hl, hi⟩
  have hn : (i + 1) % ips.length < ips.length := Nat.mod_lt _ hpos
  exact ⟨i, w1, hl, hi, ⟨_, List.getElem?_eq_getElem hi⟩, ⟨_, List.getElem?_eq_getElem hn⟩⟩

/-- Witness of C2: three iterations over the pool `[ip1, ip2]`. -/
theorem monitorIPs_index_in_range_witness :
    ["ip1", "ip2"] ≠ []
      ∧ ∃ i w', monitorIPs 3 "tok" "zone" ["r1"] ["ip1", "ip2"] "example.com" worldDownUp
            = .ok (i, w')
          ∧ i < ["ip1", "ip2"].length
          ∧ (∃ currentIP, ["ip1", "ip2"][i]? = some currentIP)
          ∧ (∃ nextIP, ["ip1", "ip2"][(i + 1) % ["ip1", "ip2"].length]? = some nextIP) :=
  ⟨by decide,
    monitorIPs_index_in_range "tok" "zone" "example.com" ["r1"] ["ip1", "ip2"] 3 worldDownUp
      (by decide)⟩

/-- C3: for every pool, every index `cur` with `ips[cur] = currentIP` and every record
list: when the probe of `currentIP` is true, the tick completes with the index still
`cur`, adds no call of `updateDNSRecord` and no request to the trace, and makes the one
probe only (one call of `checkIP`, one exchange with the network). -/
theorem tick_stable_no_update (apiToken zoneID domain currentIP : String)
    (recordIDs ips : List String) (cur : Nat) (w : World)
    (hcur : ips[cur]? = some currentIP)
    (hup : (checkIP w currentIP domain).1 = true) :
    ∃ w', tick apiToken zoneID recordIDs ips domain cur w = .ok (cur, w')
      ∧ updateCalls w'.trace = updateCalls w.trace
      ∧ sentRequests w'.trace = sentRequests w.trace
      ∧ probeCalls w'.trace = probeCalls w.trace ++ [(currentIP, domain)]
      ∧ w'.calls = w.calls + 1 := by
  refine ⟨_, tick_of_up apiToken zoneID domain currentIP recordIDs ips cur w hcur hup,
    ?_, ?_, ?_, ?_⟩
  · simp [checkIP_snd, updateCalls_append, updateCalls]
  · simp [checkIP_snd, sentRequests_append, sentRequests]
  · simp [checkIP_snd, probeCalls_append, probeCalls]
  · simp [checkIP_snd]

/-- Witness of C3: pool `[ip1, ip2]`, `ip1` up. -/
theorem tick_stable_no_update_witness :
    ["ip1", "ip2"][0]? = some "ip1"
      ∧ (checkIP worldUp "ip1" "example.com").1 = true
      ∧ ∃ w', tick "tok" "zone" ["r1", "r2"] ["ip1", "ip2"] "example.com" 0 worldUp
            = .ok (0, w')
          ∧ updateCalls w'.trace = updateCalls worldUp.trace
          ∧ sentRequests w'.trace = sentRequests worldUp.trace
          ∧ probeCalls w'.trace = probeCalls worldUp.trace ++ [("ip1", "example.com")]
          ∧ w'.calls = worldUp.calls + 1 :=
  ⟨rfl, rfl,
    tick_stable_no_update "tok" "zone" "example.com" "ip1" ["r1", "r2"] ["ip1", "ip2"] 0
      worldUp rfl rfl⟩

/-- C4: for every pool (a pool of one address included, where `nextIP` is `currentIP`),
every index `cur` with `ips[cur] = currentIP` and `ips[(cur + 1) mod len(ips)] = nextIP`,
and every record list: when the probe of `currentIP` is false and the probe of `nextIP`
that follows it is false, the tick completes with the index still `cur`, adds no call of
`updateDNSRecord`, no request and no call of `sendTelegramMessage` to the trace, and makes
those two probes only. -/
theorem tick_both_down_no_update (apiToken zoneID domain currentIP nextIP : String)
    (recordIDs ips : List String) (cur : Nat) (w : World)
    (hcur : ips[cur]? = some currentIP)
    (hnext : ips[(cur + 1) % ips.length]? = some nextIP)
    (hdown : (checkIP w currentIP domain).1 = false)
    (hdown2 : (checkIP (checkIP w currentIP domain).2 nextIP domain).1 = false) :
    ∃ w', tick apiToken zoneID recordIDs ips domain cur w = .ok (cur, w')
      ∧ updateCalls w'.trace = updateCalls w.trace
      ∧ sentRequests w'.trace = sentRequests w.trace
      ∧ notifyCalls w'.trace = notifyCalls w.trace
      ∧ probeCalls w'.trace = probeCalls w.trace ++ [(currentIP, domain), (nextIP, domain)]
      ∧ w'.calls = w.calls + 2 := by
  refine ⟨_, tick_of_both_down apiToken zoneID domain currentIP nextIP recordIDs ips cur w
    hcur hnext hdown hdown2, ?_, ?_, ?_, ?_, ?_⟩
  · simp [checkIP_snd, updateCalls_append, updateCalls]
  · simp [checkIP_snd, sentRequests_append, sentRequests]
  · simp [checkIP_snd, notifyCalls_append, notifyCalls]
  · simp [checkIP_snd, probeCalls_append, probeCalls]
  · simp [checkIP_snd]

/-- Witness of C4: the pool `[ip1]` of one address, which is down at both probes. -/
theorem tick_both_down_no_update_witness :
    ["ip1"][0]? = some "ip1"
      ∧ ["ip1"][(0 + 1) % ["ip1"].length]? = some "ip1"
      ∧ (checkIP worldDown "ip1" "example.com").1 = false
      ∧ (checkIP (checkIP worldDown "ip1" "example.com").2 "ip1" "example.com").1 = false
      ∧ ∃ w', tick "tok" "zone" ["r1"] ["ip1"] "example.com" 0 worldDown = .ok (0, w')
          ∧ updateCalls w'.trace = updateCalls worldDown.trace
          ∧ sentRequests w'.trace = sentRequests worldDown.trace
          ∧ notifyCalls w'.trace = notifyCalls worldDown.trace
          ∧ probeCalls w'.trace = probeCalls worldDown.trace
              ++ [("ip1", "example.com"), ("ip1", "example.com")]
          ∧ w'.calls = worldDown.calls + 2 :=
  ⟨rfl, rfl, rfl, rfl,
    tick_both_down_no_update "tok" "zone" "example.com" "ip1" "ip1" ["r1"] ["ip1"] 0
      worldDown rfl rfl rfl rfl⟩

/-- C5: on the pool `[ip1, ip2]` with records `[r1, r2]`, `ip1` down and `ip2` up, the tick
switches to index 1 and its whole trace is the two probes, the two PUT requests with
content `ip2`, the log lines and the sleep: no call of `sendTelegramMessage` is in it. -/
theorem tick_failover_sends_no_notification :
    ∃ w', tick "tok" "zone" ["r1", "r2"] ["ip1", "ip2"] "example.com" 0 worldDownUp
          = .ok (1, w')
      ∧ w'.trace =
          [.checkIP "ip1" "example.com",
           .httpGet "http://ip1",
           .logPrintf "IP ip1 is down, checking next IP...\n",
           .checkIP "ip2" "example.com",
           .httpGet "http://ip2",
           .logPrintf "Next IP ip2 is online, updating DNS records...\n",
           .updateDNSRecord "tok" "zone" "r1" "ip2" "example.com",
           .httpDo
             { Method := "PUT"
               URL := "https://api.cloudflare.com/client/v4/zones/zone/dns_records/r1"
               Header := [("Authorization", "Bearer tok"), ("Content-Type", "application/json")]
               Body := "\x7b\"type\":\"A\",\"name\":\"example.com\",\"content\":\"ip2\",\"ttl\":120\x7d" },
           .logPrintf "DNS record updated to: ip2\n",
           .updateDNSRecord "tok" "zone" "r2" "ip2" "example.com",
           .httpDo
             { Method := "PUT"
               URL := "https://api.cloudflare.com/client/v4/zones/zone/dns_records/r2"
               Header := [("Authorization", "Bearer tok"), ("Content-Type", "application/json")]
               Body := "\x7b\"type\":\"A\",\"name\":\"example.com\",\"content\":\"ip2\",\"ttl\":120\x7d" },
           .logPrintf "DNS record updated to: ip2\n",
           .sleep 30]
      ∧ notifyCalls w'.trace = [] :=
  ⟨_, rfl, by decide, by decide⟩

/-- C6: with every variable set but `CLOUDFLARE_RECORD_IDS`, `main` does not stop at the
configuration check: `strings.Split` gives the one-element list `[""]` for the empty string,
so `monitorIPs` is started with the record list `[""]`, and its first iteration probes the
pool and, on a failover, calls `updateDNSRecord` for the record identifier `""`. -/
theorem main_starts_monitor_without_record_ids :
    main envNoRecordIDs
        = .monitoring "token" "zone" [""] ["192.0.2.1", "192.0.2.2"] "example.com"
      ∧ ∃ w', monitorIPs 1 "token" "zone" [""] ["192.0.2.1", "192.0.2.2"] "example.com"
            worldDownUp = .ok (1, w')
          ∧ probeCalls w'.trace = [("192.0.2.1", "example.com"), ("192.0.2.2", "example.com")]
          ∧ updateCalls w'.trace = [("token", "zone", "", "192.0.2.2", "example.com")] :=
  ⟨by decide, _, rfl, by decide, by decide⟩

/-- Counterexample to C7 as stated: on the pool `[ip1, ip2]` at index 1, with `ip2` down
and `ip1` up, the tick moves the index from 1 to 0. -/
theorem tick_index_can_decrease :
    ∃ w', tick "tok" "zone" ["r1"] ["ip1", "ip2"] "example.com" 1 worldDownUp = .ok (0, w')
      ∧ ¬ (1 ≤ 0) :=
  ⟨_, rfl, by decide⟩

/-- C7, amended: for every pool, every index `cur` with `ips[cur] = currentIP` and
`ips[(cur + 1) mod len(ips)] = nextIP`, and every world, the tick completes and the index
after it is `cur` or `(cur + 1) mod len(ips)`; it is at least `cur` unless `cur` is the last
index of the pool and the tick wraps to 0; and it differs from `cur` only when the probe of
`currentIP` was false and the probe of `nextIP` was true. -/
theorem tick_index_step (apiToken zoneID domain currentIP nextIP : String)
    (recordIDs ips : List String) (cur : Nat) (w : World)
    (hcur : ips[cur]? = some currentIP)
    (hnext : ips[(cur + 1) % ips.length]? = some nextIP) :
    ∃ i w', tick apiToken zoneID recordIDs ips domain cur w = .ok (i, w')
      ∧ (i = cur ∨ i = (cur + 1) % ips.length)
      ∧ (cur ≤ i ∨ (cur + 1 = ips.length ∧ i = 0))
      ∧ (i ≠ cur → (checkIP w currentIP domain).1 = false
          ∧ (checkIP (checkIP w currentIP domain).2 nextIP domain).1 = true) := by
  have hlt : cur < ips.length := length_pos_of_getElem? hcur
  cases hc : (checkIP w currentIP domain).1 with
  | true =>
    exact ⟨cur, _, tick_of_up _ _ _ _ _ _ _ _ hcur hc, Or.inl rfl, Or.inl (Nat.le_refl _),
      fun h => absurd rfl h⟩
  | false =>
    cases hc2 : (checkIP (checkIP w currentIP domain).2 nextIP domain).1 with
    | false =>
      exact ⟨cur, _, tick_of_both_down _ _ _ _ _ _ _ _ _ hcur hnext hc hc2, Or.inl rfl,
        Or.inl (Nat.le_refl _), fun h => absurd rfl h⟩
    | true =>
      refine ⟨(cur + 1) % ips.length, _,
        tick_of_next_up _ _ _ _ _ _ _ _ _ hcur hnext hc hc2, Or.inr rfl, ?_, fun _ => ⟨rfl, rfl⟩⟩
      by_cases hlast : cur + 1 = ips.length
      · right
        exact ⟨hlast, by rw [hlast, Nat.mod_self]⟩
      · left
        rw [Nat.mod_eq_of_lt (by omega)]
        omega

/-- Witness of C7, amended: the pool `[ip1, ip2]` at index 1, `ip2` down and `ip1` up. -/
theorem tick_index_step_witness :
    ["ip1", "ip2"][1]? = some "ip2"
      ∧ ["ip1", "ip2"][(1 + 1) % ["ip1", "ip2"].length]? = some "ip1"
      ∧ ∃ i w', tick "tok" "zone" ["r1"] ["ip1", "ip2"] "example.com" 1 worldDownUp
            = .ok (i, w')
          ∧ (i = 1 ∨ i = (1 + 1) % ["ip1", "ip2"].length)
          ∧ (1 ≤ i ∨ (1 + 1 = ["ip1", "ip2"].length ∧ i = 0))
          ∧ (i ≠ 1 → (checkIP worldDownUp "ip2" "example.com").1 = false
              ∧ (checkIP (checkIP worldDownUp "ip2" "example.com").2 "ip1"
                  "example.com").1 = true) :=
  ⟨rfl, rfl,
    tick_index_step "tok" "zone" "example.com" "ip2" "ip1" ["r1"] ["ip1", "ip2"] 1
      worldDownUp rfl rfl⟩

/-! ## The record updater and the prober -/

/-- Counterexample to C8 as stated: for the zone identifier `a b`, which like the other
arguments holds no character that JSON encoding escapes, the request handed to `client.Do`
carries the URL with the space escaped, `.../zones/a%20b/dns_records/r1`, which does not
end in `/zones/a b/dns_records/r1`. -/
theorem updateDNSRecord_request_url_escaped :
    (∀ c ∈ ("tok" ++ "a b" ++ "r1" ++ "192.0.2.2" ++ "example.com").data, jsonSafe c = true)
      ∧ ∃ req, (updateDNSRecord worldUp "tok" "a b" "r1" "192.0.2.2" "example.com").2.trace =
            [.updateDNSRecord "tok" "a b" "r1" "192.0.2.2" "example.com", .httpDo req]
          ∧ req.URL = "https://api.cloudflare.com/client/v4/zones/a%20b/dns_records/r1"
          ∧ ¬ ("/zones/" ++ "a b" ++ "/dns_records/" ++ "r1").data <:+ req.URL.data :=
  ⟨by decide, _, rfl, by decide, by decide⟩

/-- C8, amended: for every token, every address and domain made of characters that JSON
encoding leaves as they are, and every zone and record identifier made of characters that
URL path escaping leaves as they are (ASCII letters, digits and `- _ . ~ $ & + , / : ; = @`),
when `http.NewRequest` accepts the URL, `updateDNSRecord` hands exactly one request to
`client.Do`: method PUT, URL the provider address followed by
`/zones/<zoneID>/dns_records/<recordID>`, header `Authorization` equal to
`Bearer <apiToken>`, header `Content-Type` equal to `application/json`, and body the JSON
object with the fields `type` (fixed `A`), `name`, `content`, `ttl` (fixed 120) in that
order. -/
theorem updateDNSRecord_request (w : World) (apiToken zoneID recordID ip domain : String)
    (hdomain : ∀ c ∈ domain.data, jsonSafe c = true)
    (hip : ∀ c ∈ ip.data, jsonSafe c = true)
    (hzone : ∀ c ∈ zoneID.data, pathSafe c = true)
    (hrecord : ∀ c ∈ recordID.data, pathSafe c = true)
    (hurl : w.urlErr ("https://api.cloudflare.com/client/v4/zones/" ++ zoneID
      ++ "/dns_records/" ++ recordID) = none) :
    ∃ req, (updateDNSRecord w apiToken zoneID recordID ip domain).2.trace =
          w.trace ++ [.updateDNSRecord apiToken zoneID recordID ip domain, .httpDo req]
      ∧ req.Method = "PUT"
      ∧ req.URL = "https://api.cloudflare.com/client/v4"
          ++ ("/zones/" ++ zoneID ++ "/dns_records/" ++ recordID)
      ∧ req.Header.Get "Authorization" = some ("Bearer " ++ apiToken)
      ∧ req.Header.Get "Content-Type" = some "application/json"
      ∧ req.Body = "\x7b\"type\":\"A\",\"name\":\"" ++ domain ++ "\",\"content\":\"" ++ ip
          ++ "\",\"ttl\":120\x7d" := by
  refine ⟨_, by rw [updateDNSRecord_snd_ok w apiToken zoneID recordID ip domain hurl],
    rfl, ?_, ?_, ?_, ?_⟩
  · have htail : ∀ c ∈ (zoneID ++ "/dns_records/" ++ recordID).data, pathSafe c = true := by
      intro c hc
      rw [String.data_append, String.data_append] at hc
      rcases List.mem_append.mp hc with hzm | hr
      · rcases List.mem_append.mp hzm with hz | hm
        · exact hzone c hz
        · exact (by decide : ∀ c ∈ "/dns_records/".data, pathSafe c = true) c hm
      · exact hrecord c hr
    have hshape : "https://api.cloudflare.com/client/v4/zones/" ++ zoneID ++ "/dns_records/"
        ++ recordID
        = "https://api.cloudflare.com/client/v4/zones/"
          ++ (zoneID ++ "/dns_records/" ++ recordID) := by
      apply String.ext
      simp only [String.data_append, List.append_assoc]
    show requestURL _ = _
    rw [hshape, requestURL_of_pathSafe _ htail]
    apply String.ext
    simp only [String.data_append, List.append_assoc]
    rfl
  · simp [Header.Set, Header.Get]
  · simp [Header.Set, Header.Get]
  · exact jsonMarshal_of_safe domain ip hdomain hip

/-- Witness of C8, amended: record `r1` of zone `zone`, address `192.0.2.2`, domain
`example.com`. -/
theorem updateDNSRecord_request_witness :
    (∀ c ∈ "example.com".data, jsonSafe c = true)
      ∧ (∀ c ∈ "192.0.2.2".data, jsonSafe c = true)
      ∧ (∀ c ∈ "zone".data, pathSafe c = true)
      ∧ (∀ c ∈ "r1".data, pathSafe c = true)
      ∧ worldUp.urlErr ("https://api.cloudflare.com/client/v4/zones/" ++ "zone"
          ++ "/dns_records/" ++ "r1") = none
      ∧ ∃ req, (updateDNSRecord worldUp "tok" "zone" "r1" "192.0.2.2" "example.com").2.trace =
            worldUp.trace
              ++ [.updateDNSRecord "tok" "zone" "r1" "192.0.2.2" "example.com", .httpDo req]
          ∧ req.Method = "PUT"
          ∧ req.URL = "https://api.cloudflare.com/client/v4"
              ++ ("/zones/" ++ "zone" ++ "/dns_records/" ++ "r1")
          ∧ req.Header.Get "Authorization" = some ("Bearer " ++ "tok")
          ∧ req.Header.Get "Content-Type" = some "application/json"
          ∧ req.Body = "\x7b\"type\":\"A\",\"name\":\"" ++ "example.com" ++ "\",\"content\":\""
              ++ "192.0.2.2" ++ "\",\"ttl\":120\x7d" :=
  ⟨by decide, by decide, by decide, by decide, rfl,
    updateDNSRecord_request worldUp "tok" "zone" "r1" "192.0.2.2" "example.com"
      (by decide) (by decide) (by decide) (by decide) rfl⟩

/-- C9: for every input and every world, `updateDNSRecord` returns the nil error if and
only if the request was built and sent, the exchange came back without a transport error,
and the status code of the response is exactly 200. -/
theorem updateDNSRecord_nil_iff (w : World) (apiToken zoneID recordID ip domain : String) :
    (updateDNSRecord w apiToken zoneID recordID ip domain).1 = none ↔
      (w.urlErr ("https://api.cloudflare.com/client/v4/zones/" ++ zoneID
          ++ "/dns_records/" ++ recordID) = none
        ∧ ∃ resp, w.http w.calls = .ok resp ∧ resp.StatusCode = 200) := by
  unfold updateDNSRecord
  simp only [NewRequest, emit_urlErr, World.exchange, emit_http, emit_calls]
  cases hu : w.urlErr ("https://api.cloudflare.com/client/v4/zones/" ++ zoneID
      ++ "/dns_records/" ++ recordID) with
  | some e => simp
  | none =>
    cases hr : w.http w.calls with
    | fail r e => simp
    | ok resp =>
      by_cases hs : resp.StatusCode = 200
      · simp [hs]
      · simp [hs]

/-- C10: for every address, every domain and every world, `checkIP` makes one GET of
`http://<ip>` and returns true if and only if that exchange came back without a transport
error and with status code exactly 200; the result is the same for every domain argument;
and when the exchange came back with an error the result is false whatever response,
nil or not, came with it. -/
theorem checkIP_true_iff (w : World) (ip domain : String) :
    ((checkIP w ip domain).1 = true ↔ ∃ resp, w.http w.calls = .ok resp ∧ resp.StatusCode = 200)
      ∧ (∀ domain', (checkIP w ip domain').1 = (checkIP w ip domain).1)
      ∧ (∀ resp err, (checkIP { w with http := fun _ => .fail resp err } ip domain).1 = false)
      ∧ (checkIP w ip domain).2.trace
          = w.trace ++ [.checkIP ip domain, .httpGet ("http://" ++ ip)]
      ∧ (checkIP w ip domain).2.calls = w.calls + 1 := by
  refine ⟨?_, ?_, ?_, ?_, ?_⟩
  · rw [checkIP_fst]
    cases hr : w.http w.calls with
    | fail r e => simp
    | ok resp => simp
  · intro domain'
    rw [checkIP_fst, checkIP_fst]
  · intro resp err
    rw [checkIP_fst]
  · rw [checkIP_snd]
  · rw [checkIP_snd]

end DnsSwitcher
